import Mathlib

set_option maxRecDepth 100000

/-!
# Verification of the Agor Task Execution & Permission Coordination core

Shallow embedding of:
* `ClaudeTool.chunkTextForStreaming` (packages/core/src/tools/claude/index.ts,
  exported through packages/core/src/permissions/index.ts) — the streaming
  Chunker;
* `PermissionService` (`waitForDecision`, `resolvePermission`, `emitRequest`),
  `ClaudePromptService.createPreToolUseHook` and the
  `POST /sessions/:id/permission-decision` endpoint, as given by the code
  listings in context/explorations/permission-system.md and
  context/explorations/git-worktree.md (the authoritative listings for the
  permission coordination layer).

Strings are modelled as Lean `String`/`List Char`; JavaScript `Map` presence,
promise single-resolution and timer clearing are modelled as explicit state.
-/

namespace Agor

/-! ## Chunker (`chunkTextForStreaming`)

The source:

```
private chunkTextForStreaming(text: string): string[] {
  const chunks: string[] = [];
  let buffer = '';
  const words = text.split(/(\s+)/); // Keep whitespace
  for (const word of words) {
    buffer += word;
    const wordCount = buffer.split(/\s+/).filter(w => w.length > 0).length;
    const hasSentenceBoundary = /[.!?\n\n]\s*$/.test(buffer.trimEnd());
    if ((hasSentenceBoundary && wordCount >= 3) || wordCount >= 10) {
      chunks.push(buffer);
      buffer = '';
    }
  }
  if (buffer.trim()) {
    chunks.push(buffer);
  }
  return chunks;
}
```
-/

/-- JavaScript `\s` (the WhiteSpace and LineTerminator productions): the
character class used by `split(/(\s+)/)`, `split(/\s+/)`, `trimEnd`, `trim`
and the `\s*` of the sentence-boundary regex. -/
def isJsWhitespace (c : Char) : Bool :=
  c == ' ' || c == '\t' || c == '\n' || c == '\r' ||
  c == '\x0b' || c == '\x0c' || c == '\u00A0' || c == '\u1680' ||
  (0x2000 ≤ c.toNat && c.toNat ≤ 0x200A) ||
  c == '\u2028' || c == '\u2029' || c == '\u202F' || c == '\u205F' ||
  c == '\u3000' || c == '\uFEFF'

/-- One step of the word counter: the fold state is
(words seen so far, currently inside a word). -/
def wordCountStep (st : Nat × Bool) (c : Char) : Nat × Bool :=
  if isJsWhitespace c then (st.1, false)
  else if st.2 then st else (st.1 + 1, true)

/-- `buffer.split(/\s+/).filter(w => w.length > 0).length`: the number of
maximal runs of non-whitespace characters. -/
def wordCount (cs : List Char) : Nat :=
  (cs.foldl wordCountStep (0, false)).1

/-- The explicit sentence terminators of the regex class `[.!?\n\n]`
without the newline (which also appears in the class). -/
def isSentenceTerm (c : Char) : Bool :=
  c == '.' || c == '!' || c == '?'

/-- Scan of the REVERSED string implementing `/[.!?\n\n]\s*$/.test(s)`:
the regex matches iff some character of the class `[.!?\n]` is followed
only by whitespace (`\s*`) up to the end of the string. -/
def sentenceRegexRev : List Char → Bool
  | [] => false
  | c :: rest =>
    if isSentenceTerm c || c == '\n' then true
    else if isJsWhitespace c then sentenceRegexRev rest
    else false

/-- `/[.!?\n\n]\s*$/.test(s)`. -/
def testSentenceRegex (cs : List Char) : Bool :=
  sentenceRegexRev cs.reverse

/-- JavaScript `String.prototype.trimEnd`. -/
def jsTrimEnd (cs : List Char) : List Char :=
  (cs.reverse.dropWhile isJsWhitespace).reverse

/-- JavaScript `String.prototype.trim`. -/
def jsTrim (cs : List Char) : List Char :=
  jsTrimEnd (cs.dropWhile isJsWhitespace)

/-- `const hasSentenceBoundary = /[.!?\n\n]\s*$/.test(buffer.trimEnd());` -/
def hasSentenceBoundary (buffer : List Char) : Bool :=
  testSentenceRegex (jsTrimEnd buffer)

/-- `(hasSentenceBoundary && wordCount >= 3) || wordCount >= 10` — the
flush test executed after appending each token to the buffer. -/
def flushCondition (buffer : List Char) : Bool :=
  (hasSentenceBoundary buffer && decide (3 ≤ wordCount buffer)) ||
    decide (10 ≤ wordCount buffer)

/-- `text.split(/(\s+)/)`: split into maximal runs of whitespace /
non-whitespace characters, keeping the separators.  (JavaScript also yields
empty-string boundary tokens at the ends; appending an empty token to the
buffer is a no-op in the loop, so they are omitted here.) -/
def splitRuns : List Char → List (List Char)
  | [] => []
  | c :: cs =>
    match splitRuns cs with
    | [] => [[c]]
    | [] :: rs => [c] :: [] :: rs
    | (d :: r) :: rs =>
      if isJsWhitespace c == isJsWhitespace d then (c :: d :: r) :: rs
      else [c] :: (d :: r) :: rs

/-- One iteration of `for (const word of words)`: append the token to the
buffer, then flush the buffer into the chunk list if `flushCondition`
holds. -/
def chunkStep (st : List (List Char) × List Char) (word : List Char) :
    List (List Char) × List Char :=
  let buffer := st.2 ++ word
  if flushCondition buffer then (st.1 ++ [buffer], []) else (st.1, buffer)

/-- `chunkTextForStreaming` on character lists: run the loop, then
`if (buffer.trim()) chunks.push(buffer)`. -/
def chunkTextForStreamingL (text : List Char) : List (List Char) :=
  let st := (splitRuns text).foldl chunkStep ([], [])
  if jsTrim st.2 ≠ [] then st.1 ++ [st.2] else st.1

/-- `ClaudeTool.chunkTextForStreaming`. -/
def chunkTextForStreaming (text : String) : List String :=
  (chunkTextForStreamingL text.data).map String.mk

/-- Whether a string ends (without any trailing whitespace) in `.`, `!`
or `?` — used to characterise what `hasSentenceBoundary` actually tests. -/
def endsWithSentenceTerminator (l : List Char) : Bool :=
  match l.getLast? with
  | some c => isSentenceTerm c
  | none => false

/-- Spec's terminator test, stated from the spec's words for comparison:
the buffer ends with a sentence terminator `.`, `!`, `?`, or a blank line. -/
def specSentenceBoundary (buffer : List Char) : Bool :=
  endsWithSentenceTerminator buffer || ['\n', '\n'].isSuffixOf buffer

/-- Spec's flush rule, stated from the spec's words for comparison:
(terminator or blank line, with ≥ 3 words) or ≥ 10 words. -/
def specFlushCondition (buffer : List Char) : Bool :=
  (specSentenceBoundary buffer && decide (3 ≤ wordCount buffer)) ||
    decide (10 ≤ wordCount buffer)

example : chunkTextForStreaming "one two three. " = ["one two three."] := by decide
example : chunkTextForStreaming " " = [] := by decide
example : chunkTextForStreaming "a b c\n\nd e f" = ["a b c\n\nd e f"] := by decide
example : specFlushCondition "a b c\n\n".data = true := by decide
example : flushCondition "a b c\n\n".data = false := by decide
example : chunkTextForStreaming "a b c d e f g h i j k" =
    ["a b c d e f g h i j", " k"] := by decide

/-! ## Permission coordination

Data model from the listings in context/explorations/permission-system.md
(`PermissionService`, `createPreToolUseHook`) and
context/explorations/git-worktree.md (updated interfaces, task updates,
`POST /sessions/:id/permission-decision`). -/

/-- Task lifecycle states (spec §4.3 / git-worktree.md task updates). -/
inductive TaskStatus
  | created
  | running
  | awaiting_permission
  | completed
  | failed
deriving DecidableEq

/-- The `permission_request` sub-record embedded in a Task while a tool
invocation is gated (git-worktree.md lines 749-758 set the first five
fields; lines 777-781 later fill `approved_by` / `approved_at`). -/
structure PermissionRequestRec where
  request_id : String
  tool_name : String
  tool_input : List (String × String)
  tool_use_id : Option String
  requested_at : String
  approved_by : Option String := none
  approved_at : Option String := none
deriving DecidableEq

/-- A Task, restricted to the fields the permission layer touches. -/
structure Task where
  task_id : String
  session_id : String
  status : TaskStatus
  permission_request : Option PermissionRequestRec := none
deriving DecidableEq

/-- `scope: 'once' | 'session' | 'project'`. -/
inductive PermScope
  | once
  | scopeSession
  | scopeProject
deriving DecidableEq

/-- `PermissionDecision` (git-worktree.md lines 718-726).  `taskId` and
`decidedBy` are `Option` because the decisions synthesized inside
`waitForDecision` (permission-system.md lines 259-277) set neither field. -/
structure PermissionDecision where
  requestId : String
  taskId : Option String
  allow : Bool
  reason : Option String
  remember : Bool
  scope : PermScope
  decidedBy : Option String
deriving DecidableEq

/-- The decision synthesized by the `abort` listener of `waitForDecision`:
`{ requestId, allow: false, reason: 'Cancelled', remember: false,
scope: 'once' }`. -/
def cancelledDecision (rid : String) : PermissionDecision :=
  { requestId := rid, taskId := none, allow := false,
    reason := some "Cancelled", remember := false, scope := .once,
    decidedBy := none }

/-- The decision synthesized by the 60-second `setTimeout` callback of
`waitForDecision`: `{ requestId, allow: false, reason: 'Timeout',
remember: false, scope: 'once' }`. -/
def timeoutDecision (rid : String) : PermissionDecision :=
  { requestId := rid, taskId := none, allow := false,
    reason := some "Timeout", remember := false, scope := .once,
    decidedBy := none }

/-- State of one `waitForDecision(requestId, signal)` call:
whether `pendingRequests` still holds the entry for this requestId,
whether `clearTimeout` has been called on its timer, and the value the
returned promise has resolved with (JavaScript promises resolve at most
once; later `resolve` calls are ignored). -/
structure WaiterState where
  entryPresent : Bool
  timerCleared : Bool
  resolved : Option PermissionDecision
deriving DecidableEq

/-- State right after `waitForDecision` has run its executor: the entry is
registered in `pendingRequests`, the timer is armed, the promise pending. -/
def initWaiter : WaiterState :=
  { entryPresent := true, timerCleared := false, resolved := none }

/-- `resolve(d)` on the promise: recorded only if the promise is still
pending. -/
def promiseResolve (w : WaiterState) (d : PermissionDecision) : WaiterState :=
  match w.resolved with
  | none => { w with resolved := some d }
  | some _ => w

/-- The three asynchronous events that can reach one pending wait:
`resolvePermission(decision)` (external delivery), the `abort` listener
firing, and the deadline timer firing. -/
inductive WaiterEvent
  | deliver (d : PermissionDecision)
  | abortSignal
  | timerFire
deriving DecidableEq

/-- Effect of one event on the waiter for `rid`:

* `deliver d` — `resolvePermission`: looks `d.requestId` up in
  `pendingRequests`; if found, `clearTimeout`, `resolve(d)`, delete;
* `abortSignal` — the listener: delete the entry, `resolve(cancelled)`
  (the timer is NOT cleared);
* `timerFire` — the timeout callback (possible only while the timer has
  not been cleared): delete the entry, `resolve(timeout)`. -/
def waiterStep (rid : String) (w : WaiterState) : WaiterEvent → WaiterState
  | .deliver d =>
    if d.requestId == rid && w.entryPresent then
      promiseResolve { w with timerCleared := true, entryPresent := false } d
    else w
  | .abortSignal =>
    promiseResolve { w with entryPresent := false } (cancelledDecision rid)
  | .timerFire =>
    if w.timerCleared then w
    else promiseResolve { w with entryPresent := false } (timeoutDecision rid)

/-- Run a sequence of events against a freshly registered wait. -/
def runWaiter (rid : String) (es : List WaiterEvent) : WaiterState :=
  es.foldl (waiterStep rid) initWaiter

/-- The outcome of the first effective event of a sequence: the first
matching delivery, abort, or timer expiry — `none` if no such event
occurs. -/
def firstOutcome (rid : String) : List WaiterEvent → Option PermissionDecision
  | [] => none
  | .deliver d :: es =>
    if d.requestId == rid then some d else firstOutcome rid es
  | .abortSignal :: _ => some (cancelledDecision rid)
  | .timerFire :: _ => some (timeoutDecision rid)

/-- Task update performed when the hook suspends (git-worktree.md lines
749-758): status becomes `awaiting_permission` and `permission_request`
is populated with an unresolved request. -/
def registerPermissionRequest (t : Task) (rid toolName : String)
    (toolInput : List (String × String)) (toolUseID : Option String)
    (now : String) : Task :=
  { t with
    status := .awaiting_permission,
    permission_request := some
      { request_id := rid, tool_name := toolName, tool_input := toolInput,
        tool_use_id := toolUseID, requested_at := now } }

/-- Task update performed after a decision (git-worktree.md lines 777-781
in the hook, and identically lines 806-810 in the decision endpoint):
`status` becomes `running` if the decision allows, else `failed`;
`permission_request.approved_by` is set from `decision.decidedBy` and
`permission_request.approved_at` to the current time.  `permission_request`
itself is kept. -/
def applyDecisionToTask (t : Task) (d : PermissionDecision) (now : String) :
    Task :=
  { t with
    status := if d.allow then .running else .failed,
    permission_request := t.permission_request.map fun pr =>
      { pr with approved_by := d.decidedBy, approved_at := some now } }

/-- A session, restricted to
`session.data?.permission_config?.allowedTools ?? []`. -/
structure SessionRec where
  session_id : String
  allowedTools : List String
deriving DecidableEq

/-- Result of the synchronous head of `createPreToolUseHook`
(permission-system.md lines 144-170): either an immediate answer with a
reason (no notification, no suspension), or suspension with a freshly
generated requestId (task update, `emitRequest` notification, then
`waitForDecision`). -/
inductive HookResult
  | immediate (allow : Bool) (reason : String)
  | suspend (rid : String)
deriving DecidableEq

/-- The session-allow-list check at the top of `createPreToolUseHook`:
`if (session.data?.permission_config?.allowedTools?.includes(input.tool_name))
return allow / 'Allowed by session config'`; otherwise the hook generates
`requestId`, publishes the permission request and suspends. -/
def preToolUseHookCheck (sess : SessionRec) (toolName : String)
    (rid : String) : HookResult :=
  if sess.allowedTools.contains toolName then
    .immediate true "Allowed by session config"
  else
    .suspend rid

/-- Persistence of a remembered decision (permission-system.md lines
172-186): for `remember && scope === 'session'`, the tool name is appended
to the session's allowed-tools list; project scope writes
`.claude/settings.json` (outside the session record); `once` saves
nothing. -/
def applyRememberedDecision (sess : SessionRec) (d : PermissionDecision)
    (toolName : String) : SessionRec :=
  if d.remember then
    if d.scope = .scopeSession then
      { sess with allowedTools := sess.allowedTools ++ [toolName] }
    else sess
  else sess

/-- The JSON body accepted by `POST /sessions/:id/permission-decision`
(git-worktree.md lines 797-803).  Fields checked by the handler are
`Option`s so that the `!data.x` validations are expressible; JavaScript
treats a missing field and an empty string alike as falsy. -/
structure DecisionPayload where
  requestId : Option String
  taskId : Option String
  allow : Option Bool
  reason : Option String := none
  remember : Bool := false
  scope : PermScope := .once
  decidedBy : Option String
deriving DecidableEq

/-- Daemon-side state seen by the decision endpoint: the task table and
the single in-flight permission wait (its requestId and waiter state). -/
structure EndpointState where
  tasks : List (String × Task)
  pendingRid : String
  waiter : WaiterState
deriving DecidableEq

/-- Look a task up by id. -/
def lookupTask (ts : List (String × Task)) (tid : String) : Option Task :=
  (ts.find? fun p => p.1 == tid).map fun p => p.2

/-- `tasksService.patch(tid, ...)` on the task table. -/
def updateTaskList (ts : List (String × Task)) (tid : String)
    (f : Task → Task) : List (String × Task) :=
  ts.map fun p => if p.1 == tid then (p.1, f p.2) else p

/-- `!x` for an optional string: absent or empty is falsy. -/
def presentString : Option String → Option String
  | some s => if s = "" then none else some s
  | none => none

/-- The `PermissionDecision` the endpoint builds from a validated payload
(requestId, taskId, decidedBy present and non-empty, allow boolean). -/
def payloadDecision (reqId tid decBy : String) (b : Bool)
    (data : DecisionPayload) : PermissionDecision :=
  { requestId := reqId, taskId := some tid, allow := b,
    reason := data.reason, remember := data.remember,
    scope := data.scope, decidedBy := some decBy }

/-- The `create` handler of `POST /sessions/:id/permission-decision`
(git-worktree.md lines 796-817): validate `requestId`, `taskId`,
`decidedBy`, `allow`; then patch the task (status from `allow`,
approval fields) and only then call `resolvePermission`, whose effect on
an unknown or already-resolved requestId is a no-op. -/
def permissionDecisionCreate (st : EndpointState) (data : DecisionPayload)
    (now : String) : Except String (EndpointState × Bool) :=
  match presentString data.requestId with
  | none => .error "requestId required"
  | some reqId =>
    match presentString data.taskId with
    | none => .error "taskId required"
    | some tid =>
      match presentString data.decidedBy with
      | none => .error "decidedBy required"
      | some decBy =>
        match data.allow with
        | none => .error "allow field required"
        | some b =>
          let d : PermissionDecision := payloadDecision reqId tid decBy b data
          let tasks' := updateTaskList st.tasks tid
            fun t => applyDecisionToTask t d now
          let waiter' := waiterStep st.pendingRid st.waiter (.deliver d)
          .ok ({ st with tasks := tasks', waiter := waiter' }, true)

/-- Task states reachable through the permission-gating operations on a
task: a task that enters the gate (no pending request, not awaiting),
suspension (`registerPermissionRequest`), and decision application
(`applyDecisionToTask`, used by both the hook and the endpoint, for
genuine as well as synthesized decisions). -/
inductive GateReachable : Task → Prop
  | start (t : Task) : t.permission_request = none →
      t.status ≠ TaskStatus.awaiting_permission → GateReachable t
  | registerStep (t : Task) (rid toolName : String)
      (toolInput : List (String × String)) (toolUseID : Option String)
      (now : String) : GateReachable t →
      GateReachable (registerPermissionRequest t rid toolName toolInput toolUseID now)
  | resolveStep (t : Task) (d : PermissionDecision) (now : String) :
      GateReachable t → GateReachable (applyDecisionToTask t d now)

/-! ### Concrete sample states used by counterexamples and witnesses -/

/-- A pending permission request for the Bash tool. -/
def sampleRequest : PermissionRequestRec :=
  { request_id := "r1", tool_name := "Bash",
    tool_input := [("command", "ls")], tool_use_id := some "tu1",
    requested_at := "t0" }

/-- A task suspended on `sampleRequest`. -/
def sampleTaskAwaiting : Task :=
  { task_id := "t1", session_id := "s1",
    status := .awaiting_permission, permission_request := some sampleRequest }

/-- A task before the permission gate fires. -/
def baseTask : Task :=
  { task_id := "t1", session_id := "s1", status := .running,
    permission_request := none }

/-- A genuine allow decision for `sampleRequest`, decided by alice. -/
def sampleAllowDecision : PermissionDecision :=
  { requestId := "r1", taskId := some "t1", allow := true,
    reason := some "approved", remember := false, scope := .once,
    decidedBy := some "alice" }

/-- A session whose allow-list already contains the Bash tool. -/
def sampleSession : SessionRec :=
  { session_id := "s1", allowedTools := ["Bash"] }

/-- A session with an empty allow-list. -/
def emptySession : SessionRec :=
  { session_id := "s2", allowedTools := [] }

/-- An allow decision with remember = true at session scope. -/
def rememberedSessionDecision : PermissionDecision :=
  { requestId := "r1", taskId := some "t1", allow := true,
    reason := some "approved", remember := true,
    scope := .scopeSession, decidedBy := some "alice" }

/-- Daemon state with `sampleTaskAwaiting` suspended on requestId r1. -/
def pendingState : EndpointState :=
  { tasks := [("t1", sampleTaskAwaiting)], pendingRid := "r1",
    waiter := initWaiter }

/-- A well-formed decision payload whose requestId r2 does not match the
pending request r1. -/
def stalePayload : DecisionPayload :=
  { requestId := some "r2", taskId := some "t1", allow := some true,
    reason := none, remember := false, scope := .once,
    decidedBy := some "alice" }

/-- The payload of a first, genuine delivery for requestId r1. -/
def sampleDecisionPayload : DecisionPayload :=
  { requestId := some "r1", taskId := some "t1", allow := some true,
    reason := none, remember := false, scope := .once,
    decidedBy := some "alice" }

/-- `sampleRequest` once resolved: approval fields recorded. -/
def sampleRequestResolved : PermissionRequestRec :=
  { sampleRequest with approved_by := some "alice", approved_at := some "t1s" }

/-- The decision that `sampleDecisionPayload` turns into. -/
def sampleDeliveredDecision : PermissionDecision :=
  { requestId := "r1", taskId := some "t1", allow := true,
    reason := none, remember := false, scope := .once,
    decidedBy := some "alice" }

/-- The completed task after the allow decision and a finished turn. -/
def completedTask : Task :=
  { task_id := "t1", session_id := "s1", status := .completed,
    permission_request := some sampleRequestResolved }

/-- Daemon state after r1 was delivered (waiter resolved, entry deleted,
timer cleared) and the turn then ran to completion. -/
def afterTurnState : EndpointState :=
  { tasks := [("t1", completedTask)],
    pendingRid := "r1",
    waiter := { entryPresent := false, timerCleared := true,
                resolved := some sampleDeliveredDecision } }

/-! ## Helper lemmas: the pending-wait machine -/

theorem waiterStep_resolved_of_some {rid : String} {w : WaiterState}
    {d : PermissionDecision} (h : w.resolved = some d) (e : WaiterEvent) :
    (waiterStep rid w e).resolved = some d := by
  cases e with
  | deliver d' =>
    unfold waiterStep
    by_cases hc : (d'.requestId == rid && w.entryPresent) = true
    · simp only [hc, if_true, promiseResolve, h]
    · simp only [hc, if_false, h]
      exact h
  | abortSignal =>
    unfold waiterStep
    simp only [promiseResolve, h]
  | timerFire =>
    unfold waiterStep
    by_cases hc : w.timerCleared = true
    · simp [hc, h]
    · simp [hc, promiseResolve, h]

theorem foldl_waiterStep_of_some {rid : String} {d : PermissionDecision} :
    ∀ (es : List WaiterEvent) (w : WaiterState), w.resolved = some d →
      (es.foldl (waiterStep rid) w).resolved = some d
  | [], _, h => h
  | e :: es, w, h =>
    foldl_waiterStep_of_some es (waiterStep rid w e)
      (waiterStep_resolved_of_some h e)

theorem runWaiter_resolved_eq (rid : String) :
    ∀ es : List WaiterEvent, (runWaiter rid es).resolved = firstOutcome rid es
  | [] => rfl
  | .deliver d :: es => by
    simp only [runWaiter, List.foldl_cons]
    by_cases h : (d.requestId == rid) = true
    · have hstep : waiterStep rid initWaiter (.deliver d) =
          { entryPresent := false, timerCleared := true, resolved := some d } := by
        simp [waiterStep, initWaiter, h, promiseResolve]
      rw [hstep, foldl_waiterStep_of_some es _ rfl]
      simp [firstOutcome, h]
    · have hstep : waiterStep rid initWaiter (.deliver d) = initWaiter := by
        simp [waiterStep, initWaiter, h]
      rw [hstep]
      have ih := runWaiter_resolved_eq rid es
      simp only [runWaiter] at ih
      rw [ih]
      simp [firstOutcome, h]
  | .abortSignal :: es => by
    simp only [runWaiter, List.foldl_cons]
    have hstep : waiterStep rid initWaiter .abortSignal =
        { entryPresent := false, timerCleared := false,
          resolved := some (cancelledDecision rid) } := by
      simp [waiterStep, initWaiter, promiseResolve]
    rw [hstep, foldl_waiterStep_of_some es _ rfl]
    rfl
  | .timerFire :: es => by
    simp only [runWaiter, List.foldl_cons]
    have hstep : waiterStep rid initWaiter .timerFire =
        { entryPresent := false, timerCleared := false,
          resolved := some (timeoutDecision rid) } := by
      simp [waiterStep, initWaiter, promiseResolve]
    rw [hstep, foldl_waiterStep_of_some es _ rfl]
    rfl

theorem firstOutcome_append (rid : String) :
    ∀ es es' : List WaiterEvent,
      firstOutcome rid (es ++ es') =
        match firstOutcome rid es with
        | some d => some d
        | none => firstOutcome rid es'
  | [], _ => rfl
  | .deliver d :: es, es' => by
    by_cases h : (d.requestId == rid) = true
    · simp [firstOutcome, h]
    · simp only [List.cons_append, firstOutcome, h, if_false]
      exact firstOutcome_append rid es es'
  | .abortSignal :: _, _ => rfl
  | .timerFire :: _, _ => rfl

theorem firstOutcome_some_cases (rid : String) :
    ∀ {es : List WaiterEvent} {d : PermissionDecision},
      firstOutcome rid es = some d →
      WaiterEvent.deliver d ∈ es ∨
        d = cancelledDecision rid ∨ d = timeoutDecision rid := by
  intro es
  induction es with
  | nil => intro d h; exact absurd h (by simp [firstOutcome])
  | cons e es ih =>
    intro d h
    cases e with
    | deliver d' =>
      by_cases hc : (d'.requestId == rid) = true
      · simp only [firstOutcome, hc, if_true, Option.some_inj] at h
        subst h
        exact Or.inl (List.mem_cons_self _ _)
      · simp only [firstOutcome, hc, if_false] at h
        rcases ih h with h1 | h2
        · exact Or.inl (List.mem_cons_of_mem _ h1)
        · exact Or.inr h2
    | abortSignal =>
      simp only [firstOutcome, Option.some_inj] at h
      exact Or.inr (Or.inl h.symm)
    | timerFire =>
      simp only [firstOutcome, Option.some_inj] at h
      exact Or.inr (Or.inr h.symm)

theorem waiterStep_deliver_noop {rid : String} {w : WaiterState}
    {d : PermissionDecision}
    (h : d.requestId ≠ rid ∨ w.entryPresent = false) :
    waiterStep rid w (WaiterEvent.deliver d) = w := by
  unfold waiterStep
  have hc : (d.requestId == rid && w.entryPresent) = false := by
    rcases h with h | h
    · simp [h]
    · simp [h]
  simp [hc]

theorem waiterStep_deliver_entry_absent (rid : String) (w : WaiterState)
    (d : PermissionDecision) :
    (waiterStep rid w (WaiterEvent.deliver d)).entryPresent = false ∨
      waiterStep rid w (WaiterEvent.deliver d) = w := by
  unfold waiterStep
  by_cases hc : (d.requestId == rid && w.entryPresent) = true
  · simp only [hc, if_true]
    left
    unfold promiseResolve
    cases hr : w.resolved <;> rfl
  · simp [hc]

theorem waiterStep_deliver_idem (rid : String) (w : WaiterState)
    (d : PermissionDecision) :
    waiterStep rid (waiterStep rid w (WaiterEvent.deliver d))
        (WaiterEvent.deliver d) =
      waiterStep rid w (WaiterEvent.deliver d) := by
  rcases waiterStep_deliver_entry_absent rid w d with h | h
  · exact waiterStep_deliver_noop (Or.inr h)
  · rw [h]
    exact h

/-! ## Claim theorems: permission coordination -/

/-- C10: for every call to `waitForDecision`, the returned promise resolves
exactly once, with the outcome of whichever of (matching external decision
delivery, abort signal, deadline timer) occurs first: after any event
sequence the promise's resolved value equals the outcome of the sequence's
first effective event, and once a prefix has produced a resolution, events
appended after it (a late timer after an abort, a late `resolvePermission`
after timeout) leave the resolved value unchanged. -/
theorem waitForDecision_resolves_once_with_first_event (rid : String)
    (es : List WaiterEvent) :
    (runWaiter rid es).resolved = firstOutcome rid es ∧
      ∀ es' : List WaiterEvent,
        firstOutcome rid es = none ∨
          (runWaiter rid (es ++ es')).resolved = firstOutcome rid es := by
  refine ⟨runWaiter_resolved_eq rid es, fun es' => ?_⟩
  cases h : firstOutcome rid es with
  | none => exact Or.inl rfl
  | some d =>
    right
    rw [runWaiter_resolved_eq rid (es ++ es'), firstOutcome_append rid es es',
      h]

/-- C3 counterexample: on timeout the synthesized decision's reason is the
capitalized string "Timeout" (permission-system.md line 274), not
"timeout" as the claim states. -/
theorem timeout_reason_is_capitalized :
    (runWaiter "r1" [WaiterEvent.timerFire]).resolved =
        some (timeoutDecision "r1") ∧
      (timeoutDecision "r1").reason ≠ some "timeout" := by
  constructor
  · decide
  · decide

/-- C3 (amended): a pending request with no prior resolution whose deadline
timer fires resolves to a deny decision with reason "Timeout" that is not
marked remembered, and applying that decision takes the awaiting Task to
`failed`. -/
theorem timeout_resolves_deny_and_fails_task (rid : String)
    (es : List WaiterEvent) (h : firstOutcome rid es = none)
    (t : Task) (ht : t.status = TaskStatus.awaiting_permission)
    (now : String) :
    (runWaiter rid (es ++ [WaiterEvent.timerFire])).resolved =
        some (timeoutDecision rid) ∧
      (timeoutDecision rid).allow = false ∧
      (timeoutDecision rid).remember = false ∧
      (timeoutDecision rid).reason = some "Timeout" ∧
      t.status = TaskStatus.awaiting_permission ∧
      (applyDecisionToTask t (timeoutDecision rid) now).status =
        TaskStatus.failed := by
  refine ⟨?_, rfl, rfl, rfl, ht, ?_⟩
  · rw [runWaiter_resolved_eq, firstOutcome_append, h]
    rfl
  · simp [applyDecisionToTask, timeoutDecision]


/-- Witness for the timeout theorem at a concrete pending task. -/
theorem timeout_resolves_deny_and_fails_task_witness :
    firstOutcome "r1" ([] : List WaiterEvent) = none ∧
      sampleTaskAwaiting.status = TaskStatus.awaiting_permission ∧
      (runWaiter "r1" ([] ++ [WaiterEvent.timerFire])).resolved =
        some (timeoutDecision "r1") ∧
      (applyDecisionToTask sampleTaskAwaiting (timeoutDecision "r1")
          "t9").status = TaskStatus.failed := by
  have h := timeout_resolves_deny_and_fails_task "r1" [] rfl
    sampleTaskAwaiting rfl "t9"
  exact ⟨rfl, rfl, h.1, h.2.2.2.2.2⟩

/-- C4 counterexample: on abort the synthesized decision's reason is the
capitalized string "Cancelled" (permission-system.md line 262), not
"cancelled" as the claim states. -/
theorem cancelled_reason_is_capitalized :
    (runWaiter "r1" [WaiterEvent.abortSignal]).resolved =
        some (cancelledDecision "r1") ∧
      (cancelledDecision "r1").reason ≠ some "cancelled" := by
  constructor
  · decide
  · decide

/-- C4 (amended): aborting a still-pending wait resolves (never throws) to
a deny decision with reason "Cancelled" that is not marked remembered;
and every resolution that is not a genuine external delivery is a deny
decision, so `evaluate` always reaches a terminal decision value. -/
theorem abort_resolves_deny_never_throws (rid : String)
    (es : List WaiterEvent) :
    (firstOutcome rid es = none →
      (runWaiter rid (es ++ [WaiterEvent.abortSignal])).resolved =
          some (cancelledDecision rid) ∧
        (cancelledDecision rid).allow = false ∧
        (cancelledDecision rid).remember = false ∧
        (cancelledDecision rid).reason = some "Cancelled") ∧
    ∀ d : PermissionDecision, (runWaiter rid es).resolved = some d →
      WaiterEvent.deliver d ∈ es ∨ (d.allow = false ∧ d.remember = false) := by
  constructor
  · intro h
    refine ⟨?_, rfl, rfl, rfl⟩
    rw [runWaiter_resolved_eq, firstOutcome_append, h]
    rfl
  · intro d hd
    rw [runWaiter_resolved_eq] at hd
    rcases firstOutcome_some_cases rid hd with h1 | h2 | h3
    · exact Or.inl h1
    · subst h2; exact Or.inr ⟨rfl, rfl⟩
    · subst h3; exact Or.inr ⟨rfl, rfl⟩

/-- Witness for the cancellation theorem at a concrete pending wait. -/
theorem abort_resolves_deny_never_throws_witness :
    firstOutcome "r1" ([] : List WaiterEvent) = none ∧
      (runWaiter "r1" ([] ++ [WaiterEvent.abortSignal])).resolved =
        some (cancelledDecision "r1") := by
  have h := abort_resolves_deny_never_throws "r1" []
  exact ⟨rfl, (h.1 rfl).1⟩

/-- C6 counterexample: delivering the identical decision a second time
through the endpoint DOES have an additional side effect: the handler
re-patches the Task before consulting the registry, so a duplicate allow
delivery resets the already-completed task's status back to `running`. -/
theorem duplicate_delivery_changes_task :
    (lookupTask afterTurnState.tasks "t1").map Task.status =
        some TaskStatus.completed ∧
      (permissionDecisionCreate afterTurnState sampleDecisionPayload
          "t2").toOption.map
          (fun r => (lookupTask r.1.tasks "t1").map Task.status) =
        some (some TaskStatus.running) := by
  constructor
  · decide
  · decide

/-- C6 (amended): `resolvePermission` for a request_id that is unknown or
already resolved is a no-op and never an error, and is idempotent on the
pending-request registry and on the promise; however the HTTP endpoint
re-patches the Task on every well-formed delivery, so a duplicate delivery
does overwrite the Task's status and approval fields. -/
theorem resolve_unknown_noop_idempotent (rid : String) (w : WaiterState)
    (d : PermissionDecision) :
    ((d.requestId ≠ rid ∨ w.entryPresent = false) →
      waiterStep rid w (WaiterEvent.deliver d) = w) ∧
      waiterStep rid (waiterStep rid w (WaiterEvent.deliver d))
          (WaiterEvent.deliver d) =
        waiterStep rid w (WaiterEvent.deliver d) :=
  ⟨fun h => waiterStep_deliver_noop h, waiterStep_deliver_idem rid w d⟩

/-- Witness: an unknown request_id is a no-op on a fresh waiter. -/
theorem resolve_unknown_noop_idempotent_witness :
    (sampleAllowDecision.requestId ≠ "rX" ∨
        initWaiter.entryPresent = false) ∧
      waiterStep "rX" initWaiter (WaiterEvent.deliver sampleAllowDecision) =
        initWaiter := by
  have h := resolve_unknown_noop_idempotent "rX" initWaiter
    sampleAllowDecision
  exact ⟨Or.inl (by decide), h.1 (Or.inl (by decide))⟩

/-- C2 counterexample: a stale decision (requestId r2 while r1 is pending)
is not rejected and does change the Task: the endpoint patches the task's
status from `awaiting_permission` to `running` before the registry lookup
(git-worktree.md lines 806-813). -/
theorem stale_delivery_changes_task :
    (lookupTask pendingState.tasks "t1").map Task.status =
        some TaskStatus.awaiting_permission ∧
      (permissionDecisionCreate pendingState stalePayload "t2").toOption.map
          (fun r => (lookupTask r.1.tasks "t1").map Task.status) =
        some (some TaskStatus.running) := by
  constructor
  · decide
  · decide

/-- C2 (amended): a well-formed decision whose requestId does not match the
pending request (or whose request is already resolved) is accepted without
crashing and leaves the pending-request registry and the waiting promise
completely unchanged — the pending request's eventual outcome is
unaffected — but the endpoint still patches the addressed Task's status and
approval fields from the stale decision. -/
theorem stale_decision_accepted_waiter_unchanged (st : EndpointState)
    (data : DecisionPayload) (now reqId tid decBy : String) (b : Bool)
    (hreq : presentString data.requestId = some reqId)
    (htid : presentString data.taskId = some tid)
    (hdec : presentString data.decidedBy = some decBy)
    (hallow : data.allow = some b)
    (hstale : reqId ≠ st.pendingRid ∨ st.waiter.entryPresent = false) :
    permissionDecisionCreate st data now =
      .ok ({ st with
        tasks := updateTaskList st.tasks tid fun t =>
          applyDecisionToTask t (payloadDecision reqId tid decBy b data)
            now }, true) := by
  have hnoop : waiterStep st.pendingRid st.waiter
      (WaiterEvent.deliver (payloadDecision reqId tid decBy b data)) =
      st.waiter :=
    waiterStep_deliver_noop hstale
  unfold permissionDecisionCreate
  rw [hreq, htid, hdec, hallow]
  simp only [hnoop]

/-- Witness: the stale delivery against the concrete pending state. -/
theorem stale_decision_accepted_waiter_unchanged_witness :
    presentString stalePayload.requestId = some "r2" ∧
      ("r2" ≠ pendingState.pendingRid ∨
        pendingState.waiter.entryPresent = false) ∧
      permissionDecisionCreate pendingState stalePayload "t2" =
        .ok ({ pendingState with
          tasks := updateTaskList pendingState.tasks "t1" fun t =>
            applyDecisionToTask t
              (payloadDecision "r2" "t1" "alice" true stalePayload)
              "t2" }, true) := by
  refine ⟨rfl, Or.inl (by decide), ?_⟩
  exact stale_decision_accepted_waiter_unchanged pendingState stalePayload
    "t2" "r2" "t1" "alice" true rfl rfl rfl rfl (Or.inl (by decide))

/-- C8 counterexample: after an allow decision the Task's
`permission_request` field is NOT cleared — it is kept, with the approval
fields written into it (git-worktree.md lines 777-781 patch
`permission_request.approved_by` / `approved_at` and never remove the
record). -/
theorem permission_request_not_cleared :
    (applyDecisionToTask sampleTaskAwaiting sampleAllowDecision
        "t1s").status = TaskStatus.running ∧
      (applyDecisionToTask sampleTaskAwaiting sampleAllowDecision
          "t1s").permission_request ≠ none := by
  constructor
  · decide
  · decide

/-- C8 (amended): after a resolved permission request the Task satisfies:
status is `running` if the decision allowed and `failed` otherwise;
`approved_by` is stored from the decision's `decidedBy` and `approved_at`
is set to the resolution time; `permission_request` is retained (not
cleared), carrying those approval fields. -/
theorem task_update_postcondition (t : Task) (d : PermissionDecision)
    (now : String) :
    ((applyDecisionToTask t d now).status =
        if d.allow then TaskStatus.running else TaskStatus.failed) ∧
      ∀ pr : PermissionRequestRec, t.permission_request = some pr →
        (applyDecisionToTask t d now).permission_request =
          some { pr with approved_by := d.decidedBy,
                         approved_at := some now } := by
  constructor
  · rfl
  · intro pr hpr
    simp [applyDecisionToTask, hpr]

/-- Witness: the postcondition at the concrete suspended task. -/
theorem task_update_postcondition_witness :
    sampleTaskAwaiting.permission_request = some sampleRequest ∧
      (applyDecisionToTask sampleTaskAwaiting sampleAllowDecision
          "t1s").permission_request =
        some { sampleRequest with approved_by := some "alice",
                                  approved_at := some "t1s" } := by
  have h := task_update_postcondition sampleTaskAwaiting
    sampleAllowDecision "t1s"
  exact ⟨rfl, h.2 sampleRequest rfl⟩

/-- C9: for every Task state reachable through the permission-gating
operations, the status is `awaiting_permission` exactly when
`permission_request` is present and unresolved (no `approved_at` recorded
yet; `approved_by` cannot serve as the marker because synthesized
timeout/cancel decisions carry no `decidedBy`). -/
theorem awaiting_iff_unresolved_request (t : Task) (h : GateReachable t) :
    t.status = TaskStatus.awaiting_permission ↔
      ∃ pr, t.permission_request = some pr ∧ pr.approved_at = none := by
  induction h with
  | start t h1 h2 =>
    simp only [h1]
    constructor
    · intro hs; exact absurd hs h2
    · rintro ⟨pr, hpr, _⟩; cases hpr
  | registerStep t rid toolName toolInput toolUseID now _ _ =>
    constructor
    · intro _
      exact ⟨_, rfl, rfl⟩
    · intro _
      rfl
  | resolveStep t d now _ _ =>
    constructor
    · intro hs
      exfalso
      have : (applyDecisionToTask t d now).status =
          if d.allow then TaskStatus.running else TaskStatus.failed := rfl
      rw [this] at hs
      cases hb : d.allow <;> rw [hb] at hs <;> exact absurd hs (by decide)
    · rintro ⟨pr, hpr, hat⟩
      exfalso
      have : (applyDecisionToTask t d now).permission_request =
          t.permission_request.map fun pr0 =>
            { pr0 with approved_by := d.decidedBy,
                       approved_at := some now } := rfl
      rw [this] at hpr
      cases hopt : t.permission_request with
      | none => rw [hopt] at hpr; cases hpr
      | some pr0 =>
        rw [hopt] at hpr
        simp only [Option.map_some', Option.some_inj] at hpr
        rw [← hpr] at hat
        cases hat

/-- Witness: the invariant at a concrete freshly suspended task. -/
theorem awaiting_iff_unresolved_request_witness :
    (registerPermissionRequest baseTask "r1" "Bash" [("command", "ls")]
        (some "tu1") "t0").status = TaskStatus.awaiting_permission ↔
      ∃ pr,
        (registerPermissionRequest baseTask "r1" "Bash" [("command", "ls")]
            (some "tu1") "t0").permission_request = some pr ∧
          pr.approved_at = none :=
  awaiting_iff_unresolved_request _
    (GateReachable.registerStep baseTask "r1" "Bash" [("command", "ls")]
      (some "tu1") "t0" (GateReachable.start baseTask rfl (by decide)))

/-- C7 counterexample: the immediate allow for a session-allow-listed tool
carries the reason string "Allowed by session config"
(permission-system.md line 151), not "session policy" as the claim
states. -/
theorem session_policy_reason_mismatch :
    preToolUseHookCheck sampleSession "Bash" "r9" =
        HookResult.immediate true "Allowed by session config" ∧
      "Allowed by session config" ≠ "session policy" := by
  constructor
  · decide
  · decide

/-- C7 (amended): if the tool name is in the session-scope allow-list the
hook answers allow immediately with reason "Allowed by session config" —
no suspension and no permission-request notification; and after any
decision with remember = true and scope = session is persisted, every
subsequent check for that tool name in the session short-circuits the same
way. -/
theorem session_allowlist_short_circuit (sess : SessionRec)
    (toolName rid : String) :
    (sess.allowedTools.contains toolName = true →
      preToolUseHookCheck sess toolName rid =
        HookResult.immediate true "Allowed by session config") ∧
    ∀ (d : PermissionDecision) (rid2 : String), d.remember = true →
      d.scope = PermScope.scopeSession →
      preToolUseHookCheck (applyRememberedDecision sess d toolName)
          toolName rid2 =
        HookResult.immediate true "Allowed by session config" := by
  constructor
  · intro h
    have hm : toolName ∈ sess.allowedTools := by simpa using h
    simp [preToolUseHookCheck, hm]
  · intro d rid2 hrem hscope
    have hm : toolName ∈
        (applyRememberedDecision sess d toolName).allowedTools := by
      simp [applyRememberedDecision, hrem, hscope]
    simp [preToolUseHookCheck, hm]

/-- Witness: the short-circuit for the concrete session and a remembered
session-scope decision. -/
theorem session_allowlist_short_circuit_witness :
    sampleSession.allowedTools.contains "Bash" = true ∧
      preToolUseHookCheck sampleSession "Bash" "r9" =
        HookResult.immediate true "Allowed by session config" ∧
      preToolUseHookCheck
          (applyRememberedDecision emptySession rememberedSessionDecision
            "Write")
          "Write" "r10" =
        HookResult.immediate true "Allowed by session config" := by
  have h1 := session_allowlist_short_circuit sampleSession "Bash" "r9"
  have h2 := session_allowlist_short_circuit emptySession "Write" "r10"
  exact ⟨by decide, h1.1 (by decide),
    h2.2 rememberedSessionDecision "r10" rfl rfl⟩

/-! ## Helper lemmas: the Chunker -/

theorem splitRuns_flatten : ∀ cs : List Char, (splitRuns cs).flatten = cs
  | [] => rfl
  | c :: cs => by
    have ih := splitRuns_flatten cs
    unfold splitRuns
    cases h : splitRuns cs with
    | nil =>
      rw [h] at ih
      simp only [List.flatten_nil] at ih
      simp [← ih]
    | cons r rs =>
      cases r with
      | nil =>
        rw [h] at ih
        simp only [List.flatten_cons, List.nil_append] at ih
        simp [ih]
      | cons d r' =>
        rw [h] at ih
        by_cases hcd : (isJsWhitespace c == isJsWhitespace d) = true
        · simp only [hcd, if_true, List.flatten_cons]
          simp only [List.flatten_cons] at ih
          simp [ih]
        · simp only [hcd, if_false, List.flatten_cons]
          simp only [List.flatten_cons] at ih
          simp [ih]

theorem chunkFold_flatten :
    ∀ (toks : List (List Char)) (st : List (List Char) × List Char),
      (toks.foldl chunkStep st).1.flatten ++ (toks.foldl chunkStep st).2 =
        st.1.flatten ++ (st.2 ++ toks.flatten)
  | [], st => by simp
  | t :: ts, st => by
    rw [List.foldl_cons, chunkFold_flatten ts (chunkStep st t)]
    unfold chunkStep
    by_cases h : flushCondition (st.2 ++ t) = true
    · simp [h, List.append_assoc]
    · simp [h, List.append_assoc]

theorem jsTrim_eq_nil_iff (l : List Char) :
    jsTrim l = [] ↔ ∀ c ∈ l, isJsWhitespace c = true := by
  unfold jsTrim jsTrimEnd
  rw [List.reverse_eq_nil_iff, List.dropWhile_eq_nil_iff]
  constructor
  · intro h c hc
    have hsplit := List.takeWhile_append_dropWhile isJsWhitespace l
    rw [← hsplit] at hc
    rcases List.mem_append.mp hc with h1 | h2
    · exact List.mem_takeWhile_imp h1
    · exact h c (List.mem_reverse.mpr h2)
  · intro h c hc
    exact h c (List.dropWhile_subset isJsWhitespace
      (List.mem_reverse.mp hc))

theorem foldl_wordCountStep_fst_allws :
    ∀ (l : List Char), (∀ c ∈ l, isJsWhitespace c = true) →
      ∀ (n : Nat) (b : Bool), (l.foldl wordCountStep (n, b)).1 = n
  | [], _, _, _ => rfl
  | c :: l, h, n, b => by
    rw [List.foldl_cons]
    have hc : isJsWhitespace c = true := h c (List.mem_cons_self c l)
    have hrest : ∀ x ∈ l, isJsWhitespace x = true := fun x hx =>
      h x (List.mem_cons_of_mem c hx)
    simp only [wordCountStep, hc, if_true]
    exact foldl_wordCountStep_fst_allws l hrest n false

theorem wordCount_eq_zero_of_allws {l : List Char}
    (h : ∀ c ∈ l, isJsWhitespace c = true) : wordCount l = 0 :=
  foldl_wordCountStep_fst_allws l h 0 false

theorem flush_jsTrim_ne {b : List Char} (h : flushCondition b = true) :
    jsTrim b ≠ [] := by
  intro hnil
  have h0 : wordCount b = 0 :=
    wordCount_eq_zero_of_allws ((jsTrim_eq_nil_iff b).mp hnil)
  unfold flushCondition at h
  rw [h0] at h
  simp at h

theorem chunkFold_all_nonws :
    ∀ (toks : List (List Char)) (st : List (List Char) × List Char),
      (∀ c ∈ st.1, jsTrim c ≠ []) →
      ∀ c ∈ (toks.foldl chunkStep st).1, jsTrim c ≠ []
  | [], _, h => h
  | t :: ts, st, h => by
    rw [List.foldl_cons]
    apply chunkFold_all_nonws ts
    unfold chunkStep
    by_cases hf : flushCondition (st.2 ++ t) = true
    · simp only [hf, if_true]
      intro c hc
      rcases List.mem_append.mp hc with h1 | h2
      · exact h c h1
      · rw [List.mem_singleton] at h2
        subst h2
        exact flush_jsTrim_ne hf
    · simp only [hf, if_false]
      exact h

theorem sentenceRegexRev_dropWhile (l : List Char) :
    sentenceRegexRev (l.dropWhile isJsWhitespace) =
      match (l.dropWhile isJsWhitespace).head? with
      | some c => isSentenceTerm c
      | none => false := by
  induction l with
  | nil => rfl
  | cons a l ih =>
    rw [List.dropWhile_cons]
    by_cases ha : isJsWhitespace a = true
    · simp only [ha, if_true]
      exact ih
    · rw [if_neg ha]
      show (if (isSentenceTerm a || a == '\n') = true then true
          else if isJsWhitespace a = true then sentenceRegexRev l
          else false) =
        isSentenceTerm a
      by_cases hterm : (isSentenceTerm a || a == '\n') = true
      · rw [if_pos hterm]
        rcases Bool.or_eq_true_iff.mp hterm with h1 | h1
        · exact h1.symm
        · exfalso
          apply ha
          have he : a = '\n' := by simpa using h1
          rw [he]
          rfl
      · have h1 : isSentenceTerm a = false := by
          cases hs : isSentenceTerm a
          · rfl
          · exact absurd (Bool.or_eq_true_iff.mpr (Or.inl hs)) hterm
        rw [if_neg hterm, if_neg ha, h1]

theorem hasSentenceBoundary_eq (b : List Char) :
    hasSentenceBoundary b = endsWithSentenceTerminator (jsTrimEnd b) := by
  unfold hasSentenceBoundary testSentenceRegex jsTrimEnd
    endsWithSentenceTerminator
  rw [List.reverse_reverse, sentenceRegexRev_dropWhile,
    List.getLast?_reverse]

theorem foldl_append_mk :
    ∀ (ls : List (List Char)) (acc : String),
      (ls.map String.mk).foldl (fun r s => r ++ s) acc =
        String.mk (acc.data ++ ls.flatten)
  | [], acc => by simp
  | l :: ls, acc => by
    simp only [List.map_cons, List.foldl_cons]
    rw [foldl_append_mk ls (acc ++ String.mk l)]
    rw [String.data_append]
    simp [List.append_assoc]

theorem string_join_mk (ls : List (List Char)) :
    String.join (ls.map String.mk) = String.mk ls.flatten := by
  show (ls.map String.mk).foldl (fun r s => r ++ s) "" = String.mk ls.flatten
  rw [foldl_append_mk]
  rfl

theorem mk_append_empty (l : List Char) : String.mk l ++ "" = String.mk l := by
  show String.mk (l ++ []) = String.mk l
  rw [List.append_nil]

theorem mk_append (a b : List Char) :
    String.mk a ++ String.mk b = String.mk (a ++ b) := rfl

theorem chunkTextForStreamingL_eq (text : List Char) :
    chunkTextForStreamingL text =
      if jsTrim ((splitRuns text).foldl chunkStep ([], [])).2 ≠ [] then
        ((splitRuns text).foldl chunkStep ([], [])).1 ++
          [((splitRuns text).foldl chunkStep ([], [])).2]
      else ((splitRuns text).foldl chunkStep ([], [])).1 := rfl

/-! ## Claim theorems: the Chunker -/

/-- C1 counterexample: concatenating the chunks does not reproduce a fed
text that ends in whitespace after a flushed sentence: the final
`if (buffer.trim())` guard drops a whitespace-only remainder. -/
theorem roundtrip_fails_on_trailing_ws :
    chunkTextForStreaming "one two three. " = ["one two three."] ∧
      String.join (chunkTextForStreaming "one two three. ") ≠
        "one two three. " := by
  constructor
  · decide
  · decide

/-- C1 (amended): concatenating all emitted chunks in emission order
reproduces the fed text exactly, except that a trailing remainder
consisting only of whitespace is dropped: for every input there is a
whitespace-only suffix `w` (empty whenever the final buffer contains a
non-whitespace character) with `concat(chunks) ++ w = text`. -/
theorem chunker_roundtrip_up_to_trailing_ws (text : String) :
    ∃ w : String, (∀ c ∈ w.data, isJsWhitespace c = true) ∧
      String.join (chunkTextForStreaming text) ++ w = text := by
  have hjoin : ((splitRuns text.data).foldl chunkStep ([], [])).1.flatten ++
      ((splitRuns text.data).foldl chunkStep ([], [])).2 = text.data := by
    have h2 := chunkFold_flatten (splitRuns text.data) ([], [])
    simpa [splitRuns_flatten] using h2
  by_cases h : jsTrim ((splitRuns text.data).foldl chunkStep ([], [])).2 ≠ []
  · refine ⟨"", fun c hc => absurd hc (List.not_mem_nil c), ?_⟩
    unfold chunkTextForStreaming
    rw [chunkTextForStreamingL_eq, if_pos h, string_join_mk,
      mk_append_empty]
    have hfl : (((splitRuns text.data).foldl chunkStep ([], [])).1 ++
        [((splitRuns text.data).foldl chunkStep ([], [])).2]).flatten =
        text.data := by
      rw [List.flatten_append]
      simpa using hjoin
    rw [hfl]
  · rw [not_not] at h
    refine ⟨String.mk ((splitRuns text.data).foldl chunkStep ([], [])).2,
      fun c hc => (jsTrim_eq_nil_iff _).mp h c hc, ?_⟩
    unfold chunkTextForStreaming
    rw [chunkTextForStreamingL_eq, if_neg (not_not_intro h),
      string_join_mk, mk_append, hjoin]

/-- C5 counterexample: a buffer ending in a blank line with three words
must flush under the claim's rule but does not flush in the code (the
buffer is right-trimmed before the regex test, so the `\n` of the class
can never match); and a non-empty whitespace-only remainder is NOT
flushed on finish. -/
theorem blank_line_never_flushes :
    specFlushCondition "a b c\n\n".data = true ∧
      flushCondition "a b c\n\n".data = false ∧
      chunkTextForStreaming "a b c\n\nd e f" = ["a b c\n\nd e f"] ∧
      chunkTextForStreaming "x y z. " = ["x y z."] := by
  refine ⟨by decide, by decide, by decide, by decide⟩

/-- C5 (amended): the Chunker flushes exactly when (the right-trimmed
buffer ends with `.`, `!` or `?` AND the buffer has ≥ 3 words) OR the
buffer has ≥ 10 words — a blank line never triggers a flush, because the
buffer is right-trimmed before the terminator test; and every emitted
chunk, the final flush included, contains at least one non-whitespace
character (a whitespace-only remainder is silently dropped on finish). -/
theorem flush_rule_characterization :
    (∀ b : List Char, flushCondition b =
      ((endsWithSentenceTerminator (jsTrimEnd b) &&
          decide (3 ≤ wordCount b)) || decide (10 ≤ wordCount b))) ∧
    ∀ (t c : String), c ∈ chunkTextForStreaming t → jsTrim c.data ≠ [] := by
  constructor
  · intro b
    unfold flushCondition
    rw [hasSentenceBoundary_eq]
  · intro t c hc
    unfold chunkTextForStreaming at hc
    rcases List.mem_map.mp hc with ⟨l, hl, rfl⟩
    show jsTrim l ≠ []
    rw [chunkTextForStreamingL_eq] at hl
    by_cases hh : jsTrim ((splitRuns t.data).foldl chunkStep ([], [])).2 ≠ []
    · rw [if_pos hh] at hl
      rcases List.mem_append.mp hl with h1 | h2
      · exact chunkFold_all_nonws _ _ (fun c hc => absurd hc
          (List.not_mem_nil c)) l h1
      · rw [List.mem_singleton] at h2
        subst h2
        exact hh
    · rw [if_neg hh] at hl
      exact chunkFold_all_nonws _ _ (fun c hc => absurd hc
        (List.not_mem_nil c)) l hl

/-- Witness: a concrete chunk produced by a sentence flush satisfies the
non-whitespace property, through the characterization theorem. -/
theorem flush_rule_characterization_witness :
    flushCondition "Hi there now.".data =
        ((endsWithSentenceTerminator (jsTrimEnd "Hi there now.".data) &&
            decide (3 ≤ wordCount "Hi there now.".data)) ||
          decide (10 ≤ wordCount "Hi there now.".data)) ∧
      ("Hi there now." ∈ chunkTextForStreaming "Hi there now. More") ∧
      jsTrim "Hi there now.".data ≠ [] := by
  have h := flush_rule_characterization
  refine ⟨h.1 "Hi there now.".data, by decide, ?_⟩
  exact h.2 "Hi there now. More" "Hi there now." (by decide)

end Agor
